import Mathlib

/-!
Shallow embedding of the illumos kernel NLM (Network Lock Manager) core,
from usr/src/uts/common/klm/nlm_impl.c and nlm_service.c, together with
theorems settling the specification claims about it.

Machine integers are modelled as `Int`/`Nat` (no overflow is relevant to the
properties below); C booleans as `Bool`; fallible paths as `Option`.
-/

namespace NLM

/-- Solaris errno values used by the NLM code paths. -/
def ENOENT : Nat := 2
/-- Errno EINTR. -/
def EINTR : Nat := 4
/-- Errno EAGAIN. -/
def EAGAIN : Nat := 11
/-- Errno ENOLCK. -/
def ENOLCK : Nat := 46
/-- Errno ETIMEDOUT. -/
def ETIMEDOUT : Nat := 145

/-- Response status codes, `enum nlm4_stats` (subset written by the handlers). -/
inductive Nlm4Stats where
  | granted
  | denied
  | denied_nolocks
  | blocked
  | denied_grace_period
  | deadlck
  | rofs
  | stale_fh
  | fbig
  | failed
  deriving DecidableEq, Repr

/-! ## nlm_do_lock (nlm_service.c) -/

/-- Inputs that determine the behaviour of one `nlm_do_lock` call.
Each field abstracts the result of one external collaborator exactly where
the C code consumes it. -/
structure LockIn where
  /-- `nlm_host_findcreate` returned non-NULL. -/
  hostFound : Bool
  /-- `NLM_IN_GRACE(g)`: `ddi_get_lbolt() < g->grace_threshold`. -/
  inGrace : Bool
  /-- `argp->reclaim` (C int used as boolean). -/
  reclaim : Bool
  /-- `argp->state`, the client's NSM state number. -/
  argState : Int
  /-- `nlm_host_get_state(host)`, i.e. `host->nh_state`. -/
  hostState : Int
  /-- `nlm_fh_to_vhold` returned non-NULL. -/
  vholdOk : Bool
  /-- Errno from `VOP_FRLOCK(.., F_SETLK, ..)`; 0 means success. -/
  setlkErr : Nat
  /-- `argp->block`. -/
  blockArg : Bool
  /-- `grant_cb != NULL` (the `*_NM_LOCK` entry points pass NULL). -/
  grantCb : Bool
  /-- `svc_reserve_thread(sr->rq_xprt)` succeeded. -/
  reserveOk : Bool
  deriving DecidableEq, Repr

/-- Events emitted by `nlm_do_lock`, in program order. -/
inductive LockEv where
  /-- Call of `nlm_host_notify_server(host, argp->state)`. -/
  | notifyServer (st : Int)
  /-- The non-blocking `VOP_FRLOCK(.., F_SETLK, ..)` call. -/
  | setlk
  /-- The reply sent at `doreply` (`none` models the uninitialized
  local `status` that overwrites `nlm4_stale_fh` there). -/
  | reply (st : Option Nlm4Stats)
  /-- Call of `nlm_host_monitor`. -/
  | monitor
  /-- Thread detach plus `nlm_block` invocation. -/
  | blockPath
  deriving DecidableEq, Repr

/-- Embedding of the `switch (error)` on the non-blocking SETLK result in
`nlm_do_lock` (nlm_service.c:444-485).
Returns `(status, do_blocking, do_mon_req)`. -/
def nlm_do_lock_setlk_switch (error : Nat) (blockArg grantCb reserveOk : Bool) :
    Nlm4Stats × Bool × Bool :=
  if error = 0 then
    (.granted, false, true)
  else if error = EAGAIN then
    if blockArg = false || grantCb = false then
      (.denied, false, false)
    else if !reserveOk then
      (.denied_nolocks, false, false)
    else
      (.blocked, true, true)
  else if error = ENOLCK then
    (.denied_nolocks, false, false)
  else
    (.denied, false, false)

/-- Embedding of `nlm_do_lock` (nlm_service.c:367-555): final value of
`resp->stat.stat` plus the ordered list of the events of interest.
On the path where `nlm_fh_to_vhold` fails, the C code stores `nlm4_stale_fh`
into the response but then falls through to `doreply` which overwrites it with
the still-uninitialized local `status`; that indeterminate final value is
modelled as `none`. -/
def nlm_do_lock_run (i : LockIn) : Option Nlm4Stats × List LockEv :=
  if i.hostFound = false then
    (some .denied_nolocks, [.reply (some .denied_nolocks)])
  else if i.reclaim = false && i.inGrace then
    (some .denied_grace_period, [.reply (some .denied_grace_period)])
  else
    let pre : List LockEv :=
      if i.hostState ≠ i.argState then [.notifyServer i.argState] else []
    if i.vholdOk = false then
      (none, pre ++ [.reply none])
    else
      let r := nlm_do_lock_setlk_switch i.setlkErr i.blockArg i.grantCb i.reserveOk
      (some r.1,
        pre ++ [.setlk, .reply (some r.1)]
          ++ (if r.2.2 && i.grantCb then [.monitor] else [])
          ++ (if r.2.1 then [.blockPath] else []))

/-! ## nlm_do_test (nlm_service.c) -/

/-- Outcome of the `VOP_FRLOCK(.., F_GETLK, ..)` call in `nlm_do_test`. -/
inductive GetlkOutcome where
  /-- The call returned a nonzero errno. -/
  | err
  /-- Success with `fl.l_type == F_UNLCK`: no conflicting lock. -/
  | unlocked
  /-- Success with a conflicting holder `(exclusive, svid, l_offset, l_len)`. -/
  | held (exclusive : Bool) (svid l_offset l_len : Int)
  deriving DecidableEq, Repr

/-- Inputs that determine the behaviour of one `nlm_do_test` call. -/
structure TestIn where
  /-- `nlm_host_findcreate` returned non-NULL. -/
  hostFound : Bool
  /-- `nlm_do_fh_to_vp` returned non-NULL. -/
  fhValid : Bool
  /-- `NLM_IN_GRACE(g)`. -/
  inGrace : Bool
  /-- Result of the GETLK call against the local engine. -/
  getlk : GetlkOutcome
  deriving DecidableEq, Repr

/-- Embedding of `nlm_do_test` (nlm_service.c:252-348): the final value of
`resp->stat.stat`.  Note the source checks the file handle translation
(line 283) before the grace period (line 289). -/
def nlm_do_test_status (i : TestIn) : Nlm4Stats :=
  if i.hostFound = false then .denied_nolocks
  else if i.fhValid = false then .stale_fh
  else if i.inGrace then .denied_grace_period
  else
    match i.getlk with
    | .err => .failed
    | .unlocked => .granted
    | .held _ _ _ _ => .denied

/-! ## Client sleeping locks (nlm_impl.c) -/

/-- Client sleeping-lock states, `NLM_SL_BLOCKED / GRANTED / CANCELLED`. -/
inductive SlState where
  | blocked
  | granted
  | cancelled
  deriving DecidableEq, Repr

/-- How `cv_timedwait_sig` returned in `nlm_slock_wait`: positive (woken by
signal/broadcast on the condvar), zero (interrupted by a signal), negative
(the timed wait expired). -/
inductive CvRes where
  | signalled
  | interrupted
  | timedout
  deriving DecidableEq, Repr

/-- Embedding of `nlm_slock_wait` (nlm_impl.c:1667-1717).
`stInit` is `nslp->nsl_state` when the registry mutex is first taken; if it is
still BLOCKED the thread waits and `w` describes how the wait returned, with
`stWake` the state re-read under the mutex after waking.  If `stInit` is not
BLOCKED no wait happens, so the observed state is `stInit` itself.  The result
is the returned errno; `none` models the `VERIFY(state == GRANTED)` panic on a
condvar wake that finds the lock neither granted nor cancelled. -/
def nlm_slock_wait (stInit : SlState) (w : CvRes) (stWake : SlState) : Option Nat :=
  let cvRes : Int :=
    if stInit = .blocked then
      match w with
      | .signalled => 1
      | .interrupted => 0
      | .timedout => -1
    else 1
  let st := if stInit = .blocked then stWake else stInit
  if st = .cancelled then
    some EINTR
  else if cvRes ≤ 0 then
    some (if st = .granted then 0 else if cvRes < 0 then ETIMEDOUT else EINTR)
  else
    if st = .granted then some 0 else none

/-- Client sleeping-lock record, `struct nlm_slock`, restricted to the fields
the grant and cancel paths inspect.  The host is identified by a number
standing for the `nsl_host` pointer. -/
structure Slock where
  host : Nat
  state : SlState
  svid : Int
  l_offset : Int
  l_len : Int
  fh : List Nat
  deriving DecidableEq, Repr

/-- Lock description carried by a GRANTED callback: the `nlm4_lock` fields
that `nlm_slock_grant` compares. -/
structure Alock where
  svid : Int
  l_offset : Int
  l_len : Int
  fh : List Nat
  deriving DecidableEq, Repr

/-- The field comparison of `nlm_slock_grant` (nlm_impl.c:1740-1745):
svid, l_offset, l_len, fh length and fh bytes. -/
def slock_matches (a : Alock) (s : Slock) : Bool :=
  a.svid = s.svid && a.l_offset = s.l_offset && a.l_len = s.l_len &&
  a.fh.length = s.fh.length && a.fh = s.fh

/-- Embedding of `nlm_slock_grant` (nlm_impl.c:1727-1755): walk the list, skip
entries that are not BLOCKED or belong to another host, mark the first match
GRANTED and stop; return 0 on success and ENOENT when nothing matched. -/
def nlm_slock_grant (ls : List Slock) (h : Nat) (a : Alock) : Nat × List Slock :=
  match ls with
  | [] => (ENOENT, [])
  | s :: rest =>
    if s.state = SlState.blocked && s.host = h && slock_matches a s then
      (0, { s with state := .granted } :: rest)
    else
      let r := nlm_slock_grant rest h a
      (r.1, s :: r.2)

/-- Embedding of `nlm_host_cancel_slocks` (nlm_impl.c:1126-1140): set the
state of every entry owned by the host to CANCELLED, unconditionally. -/
def nlm_host_cancel_slocks (ls : List Slock) (h : Nat) : List Slock :=
  ls.map fun s => if s.host = h then { s with state := .cancelled } else s

/-! ## Server sleeping requests (nlm_impl.c) -/

/-- Byte-range lock description, `struct flock64`, restricted to the fields
`nlm_slreq_find_locked` compares (l_start, l_len, l_pid, l_type). -/
structure Flock where
  l_start : Int
  l_len : Int
  l_pid : Int
  l_type : Int
  deriving DecidableEq, Repr

/-- The field comparison of `nlm_slreq_find_locked` (nlm_impl.c:1836-1839). -/
def flockMatch (slr flp : Flock) : Bool :=
  slr.l_start = flp.l_start && slr.l_len = flp.l_len &&
  slr.l_pid = flp.l_pid && slr.l_type = flp.l_type

/-- Embedding of `nlm_slreq_find_locked` (nlm_impl.c:1828-1844): the first
entry of the vhold's sleeping-request list matching `flp`. -/
def nlm_slreq_find_locked (slreqs : List Flock) (flp : Flock) : Option Flock :=
  slreqs.find? fun slr => flockMatch slr flp

/-- Embedding of `nlm_slreq_register` (nlm_impl.c:1764-1796): if a matching
entry exists return -1 and change nothing, else append a copy of `flp` to the
tail and return 0.  (The C code re-checks after allocating outside the host
lock; sequentially both checks see the same list.) -/
def nlm_slreq_register (slreqs : List Flock) (flp : Flock) : Int × List Flock :=
  match nlm_slreq_find_locked slreqs flp with
  | some _ => (-1, slreqs)
  | none => (0, slreqs ++ [flp])

/-- Embedding of `nlm_slreq_unregister` (nlm_impl.c:1805-1823): remove the
first matching entry and return 0, or return -1 if none matches. -/
def nlm_slreq_unregister (slreqs : List Flock) (flp : Flock) : Int × List Flock :=
  match nlm_slreq_find_locked slreqs flp with
  | some _ => (0, slreqs.eraseP fun slr => flockMatch slr flp)
  | none => (-1, slreqs)

/-! ## nlm_do_cancel (nlm_service.c) -/

/-- Inputs that determine the behaviour of one `nlm_do_cancel` call. -/
structure CancelIn where
  /-- `nlm_host_find` returned non-NULL. -/
  hostFound : Bool
  /-- `NLM_IN_GRACE(g)`. -/
  inGrace : Bool
  /-- `nlm_fh_to_vhold` returned non-NULL. -/
  vholdOk : Bool
  /-- The sleeping-request list of the resolved vhold. -/
  slreqs : List Flock
  /-- The flock64 built by `nlm_init_flock` from the request. -/
  fl : Flock
  /-- Errno of the forcing `VOP_FRLOCK(.., F_SETLK, F_UNLCK ..)`; 0 = ok. -/
  unlockErr : Nat
  deriving Repr

/-- Embedding of `nlm_do_cancel` (nlm_service.c:639-729): the final value of
`resp->stat.stat`.  The source sets granted and demotes to denied only when
the sleeping request was not unregistered and the forcing unlock failed. -/
def nlm_do_cancel_status (i : CancelIn) : Nlm4Stats :=
  if i.hostFound = false then .denied_nolocks
  else if i.inGrace then .denied_grace_period
  else if i.vholdOk = false then .stale_fh
  else
    let slreq_unreg := (nlm_slreq_unregister i.slreqs i.fl).1 = 0
    if !slreq_unreg && i.unlockErr ≠ 0 then .denied else .granted

/-! ## Vholds, the local lock engine, GC and notify_server (nlm_impl.c) -/

/-- The client-flag bit OR-ed into a sysid for client-side lock queries,
`LM_SYSID_CLIENT`. -/
def LM_SYSID_CLIENT : Nat := 16384

/-- Vhold record, `struct nlm_vhold`: held vnode identity, reference count,
per-vnode sleeping-request list. -/
structure Vhold where
  vp : Nat
  refcnt : Nat
  slreqs : List Flock
  deriving DecidableEq, Repr

/-- State of the local advisory-lock engine (os/flock.c, os/share.c) visible
to NLM: the set of (vnode, sysid) pairs carrying remote locks and the set
carrying share reservations.  `flk_sysid_has_locks` additionally sees
client-side locks, whose sysid carries the LM_SYSID_CLIENT bit. -/
structure FlkEngine where
  locks : List (Nat × Nat)
  shares : List (Nat × Nat)
  deriving DecidableEq, Repr

/-- External collaborator `flk_has_remote_locks_for_sysid(vp, sysid)`. -/
def flk_has_remote_locks_for_sysid (e : FlkEngine) (vp sysid : Nat) : Bool :=
  e.locks.contains (vp, sysid)

/-- External collaborator `shr_has_remote_shares(vp, sysid)`. -/
def shr_has_remote_shares (e : FlkEngine) (vp sysid : Nat) : Bool :=
  e.shares.contains (vp, sysid)

/-- External collaborator `flk_sysid_has_locks(sysid, FLK_QUERY_ACTIVE)`. -/
def flk_sysid_has_locks (e : FlkEngine) (sysid : Nat) : Bool :=
  e.locks.any fun l => l.2 = sysid

/-- External collaborator `cleanlocks(vp, IGN_PID, sysid)`: discard every
lock of (vp, sysid). -/
def cleanlocks (e : FlkEngine) (vp sysid : Nat) : FlkEngine :=
  { e with locks := e.locks.filter fun l => !(l.1 = vp && l.2 = sysid) }

/-- External collaborator `cleanshares_by_sysid(vp, sysid)`. -/
def cleanshares_by_sysid (e : FlkEngine) (vp sysid : Nat) : FlkEngine :=
  { e with shares := e.shares.filter fun l => !(l.1 = vp && l.2 = sysid) }

/-- Embedding of `nlm_vhold_busy` (nlm_impl.c:825-843): a vhold is busy when
it is referenced, or its vnode still carries locks or shares of the host's
sysid. -/
def nlm_vhold_busy (e : FlkEngine) (sysid : Nat) (nvp : Vhold) : Bool :=
  0 < nvp.refcnt ||
  flk_has_remote_locks_for_sysid e nvp.vp sysid ||
  shr_has_remote_shares e nvp.vp sysid

/-- The host fields inspected by the GC loop. -/
structure GcHost where
  sysid : Nat
  refs : Nat
  idle_timeout : Int
  vholds : List Vhold
  deriving DecidableEq, Repr

/-- Embedding of `nlm_host_gc_vholds` (nlm_impl.c:1150-1162): destroy every
vhold that is not busy. -/
def nlm_host_gc_vholds (e : FlkEngine) (h : GcHost) : GcHost :=
  { h with vholds := h.vholds.filter (nlm_vhold_busy e h.sysid) }

/-- Embedding of `nlm_host_has_locks` (nlm_impl.c:1168-1241): server side is
covered by the vhold list; the client side by `flk_sysid_has_locks` on
sysid | LM_SYSID_CLIENT.  (Client-side share reservations are explicitly not
checked in the source.) -/
def nlm_host_has_locks (e : FlkEngine) (h : GcHost) : Bool :=
  !h.vholds.isEmpty || flk_sysid_has_locks e (h.sysid ||| LM_SYSID_CLIENT)

/-- Decision taken by one iteration of the idle-host loop in `nlm_gc`. -/
inductive GcDecision where
  /-- The head's idle timeout is in the future: break out of the loop. -/
  | stop
  /-- Timeout renewed or still armed: continue, host kept. -/
  | keep
  /-- Host unregistered, unmonitored and destroyed. -/
  | destroy
  deriving DecidableEq, Repr

/-- Embedding of one iteration of the idle-host while loop of `nlm_gc`
(nlm_impl.c:390-460) on a candidate host, in the sequential case (no
concurrent mutation between the dropped-lock section and the re-check, so
refs and idle_timeout read at the re-check equal those read before).
Returns the decision and the host state after vhold GC / timeout renewal. -/
def nlm_gc_step (e : FlkEngine) (now idle_period : Int) (h : GcHost) :
    GcDecision × GcHost :=
  if h.idle_timeout > now then (.stop, h)
  else
    let h1 := nlm_host_gc_vholds e h
    let has_locks := nlm_host_has_locks e h1
    if h1.idle_timeout > now then (.keep, h1)
    else if has_locks || 0 < h1.refs then
      (.keep, { h1 with idle_timeout := now + idle_period })
    else (.destroy, h1)

/-- The host fields acted on by `nlm_host_notify_server`. -/
structure NotifyHost where
  sysid : Nat
  state : Int
  vholds : List Vhold
  deriving DecidableEq, Repr

/-- Embedding of `nlm_host_notify_server` (nlm_impl.c:967-1009): record the
new state when nonzero; for every vhold drain its sleeping-request list (the
entries are freed outside the critical section) and call the engine's
cleanlocks and cleanshares_by_sysid on (vp, sysid). -/
def nlm_host_notify_server (h : NotifyHost) (e : FlkEngine) (state : Int) :
    NotifyHost × FlkEngine :=
  let h1 : NotifyHost :=
    { h with state := if state ≠ 0 then state else h.state,
             vholds := h.vholds.map fun v => { v with slreqs := [] } }
  let e1 := h.vholds.foldl
    (fun acc v => cleanshares_by_sysid (cleanlocks acc v.vp h.sysid) v.vp h.sysid) e
  (h1, e1)

/-! ## Host registry: find / findcreate / release (nlm_impl.c) -/

/-- Host record fields used by the registry lifecycle operations
(struct nlm_host).  The opaque transport address (family plus address bytes;
the port is ignored by nlm_netbuf_addrs_cmp) is abstracted to a number. -/
structure RHost where
  name : String
  netid : String
  addr : Nat
  sysid : Nat
  refs : Nat
  idle_timeout : Int
  deriving DecidableEq, Repr

/-- Registry fields (struct nlm_globals) used by host lookup and release.
`hosts` is the live host set seen by both indices (the AVL tree keyed by
(addr, netid) and the hash keyed by sysid); `idle` is the idle-host LRU,
kept as the list of the sysids of its members in LRU order; `up` is
`run_status == NLM_ST_UP`. -/
structure Registry where
  hosts : List RHost
  idle : List Nat
  up : Bool
  deriving DecidableEq, Repr

/-- Key comparison of the hosts AVL tree, nlm_host_cmp
(nlm_impl.c:1295-1308): address bytes first, then netid. -/
def rhostKeyMatch (netid : String) (addr : Nat) (h : RHost) : Bool :=
  h.addr == addr && h.netid == netid

/-- Replace the first record satisfying `p` (the record the lookup found) by
`h1`, modelling the in-place mutation of the found host record. -/
def replaceFirst (l : List RHost) (p : RHost → Bool) (h1 : RHost) : List RHost :=
  match l with
  | [] => []
  | x :: xs => if p x then h1 :: xs else x :: replaceFirst xs p h1

/-- Embedding of `nlm_host_find_locked` (nlm_impl.c:1314-1344): look the host
up by (addr, netid); on a hit, remove it from the idle LRU when its refcount
is zero, then increment the refcount. -/
def nlm_host_find_locked (g : Registry) (netid : String) (addr : Nat) :
    Option RHost × Registry :=
  match g.hosts.find? (rhostKeyMatch netid addr) with
  | none => (none, g)
  | some h =>
    (some { h with refs := h.refs + 1 },
     { g with
       hosts := replaceFirst g.hosts (rhostKeyMatch netid addr)
         { h with refs := h.refs + 1 },
       idle := if h.refs = 0 then g.idle.erase h.sysid else g.idle })

/-- Embedding of `nlm_host_find` (nlm_impl.c:1349-1364). -/
def nlm_host_find (g : Registry) (netid : String) (addr : Nat) :
    Option RHost × Registry :=
  if g.up = false then (none, g) else nlm_host_find_locked g netid addr

/-- Embedding of `nlm_host_release` (nlm_impl.c:1486-1511) acting on the host
record with the given sysid.  The source asserts nh_refs > 0 on entry; the
refs = 0 case cannot arise and is modelled as a no-op.  When the last
reference is dropped the idle timeout is stamped to now + idle_period and the
host is appended to the idle LRU tail. -/
def nlm_host_release (g : Registry) (sid : Nat) (now idle_period : Int) :
    Registry :=
  match g.hosts.find? (fun h => h.sysid == sid) with
  | none => g
  | some h =>
    if h.refs = 0 then g
    else if h.refs = 1 then
      { g with
        hosts := replaceFirst g.hosts (fun x => x.sysid == sid)
          { h with refs := 0, idle_timeout := now + idle_period },
        idle := g.idle ++ [sid] }
    else
      { g with
        hosts := replaceFirst g.hosts (fun x => x.sysid == sid)
          { h with refs := h.refs - 1 } }

/-- The re-check-and-insert phase of `nlm_host_findcreate` after the unlocked
allocation (nlm_impl.c:1407-1434), applied to the registry state observed on
reacquiring the lock (which a racing findcreate may have changed meanwhile).
Returns (result, new registry, surplus-host-discarded flag): on a re-check
hit the freshly allocated `newhost` is discarded (nlm_host_destroy at `out`)
instead of inserted. -/
def nlm_host_findcreate_insert (g : Registry) (newhost : RHost) :
    Option RHost × Registry × Bool :=
  match nlm_host_find_locked g newhost.netid newhost.addr with
  | (some h, g2) => (some h, g2, true)
  | (none, _) =>
    (some newhost, { g with hosts := g.hosts ++ [newhost] }, false)

/-- Embedding of `nlm_host_findcreate` (nlm_impl.c:1375-1435) in the
sequential case: nothing changes the registry between the first lookup and
the re-check.  `knetOk` abstracts nlm_knetconfig_from_netid succeeding;
`freshSysid` abstracts nlm_sysid_alloc (`none` = LM_NOSYSID, allocator
exhausted).  A new host starts with nh_refs = 1 (nlm_create_host). -/
def nlm_host_findcreate (g : Registry) (name netid : String) (addr : Nat)
    (knetOk : Bool) (freshSysid : Option Nat) : Option RHost × Registry :=
  if g.up = false then (none, g)
  else
    match nlm_host_find_locked g netid addr with
    | (some h, g1) => (some h, g1)
    | (none, _) =>
      if knetOk = false then (none, g)
      else
        match freshSysid with
        | none => (none, g)
        | some sid =>
          let r := nlm_host_findcreate_insert g ⟨name, netid, addr, sid, 1, 0⟩
          (r.1, r.2.1)

/-- Single record per key in both indices: pairwise distinct (addr, netid)
keys and pairwise distinct sysids. -/
def KeyUnique (g : Registry) : Prop :=
  g.hosts.Pairwise (fun a b => ¬(a.addr = b.addr ∧ a.netid = b.netid)) ∧
  g.hosts.Pairwise (fun a b => a.sysid ≠ b.sysid)

/-- Registry well-formedness: key uniqueness plus a duplicate-free idle
LRU. -/
def RegistryWF (g : Registry) : Prop :=
  KeyUnique g ∧ g.idle.Nodup

/-- The C7 invariant: a live host is referenced iff it is absent from the
idle LRU. -/
def IdleInv (g : Registry) : Prop :=
  ∀ h ∈ g.hosts, (0 < h.refs ↔ h.sysid ∉ g.idle)

/-- Helper: under a resolved host, grace passed and a valid vhold, the final
status of `nlm_do_lock` is exactly the status computed by the SETLK switch. -/
theorem lock_run_reaches_setlk (i : LockIn)
    (hhost : i.hostFound = true) (hvh : i.vholdOk = true)
    (hgr : i.reclaim = true ∨ i.inGrace = false) :
    (nlm_do_lock_run i).1 =
      some (nlm_do_lock_setlk_switch i.setlkErr i.blockArg i.grantCb i.reserveOk).1 := by
  unfold nlm_do_lock_run
  rcases hgr with h | h <;> simp [hhost, hvh, h]

/-- C1: For every LOCK request whose host resolves and whose vhold is obtained
outside the grace window, the response status is determined by the local
engine's non-blocking SETLK result exactly as: success yields granted; EAGAIN
yields denied when block is false or no grant callback was provided,
denied_nolocks when thread reservation fails, and blocked otherwise; ENOLCK
yields denied_nolocks; any other error yields denied.  In particular, with
block == false and a grant callback provided, EAGAIN always yields denied,
never blocked. -/
theorem C1_lock_status_from_setlk (i : LockIn)
    (hhost : i.hostFound = true) (hvh : i.vholdOk = true)
    (hgr : i.reclaim = true ∨ i.inGrace = false) :
    (i.setlkErr = 0 → (nlm_do_lock_run i).1 = some .granted) ∧
    (i.setlkErr = EAGAIN →
      ((i.blockArg = false ∨ i.grantCb = false) →
        (nlm_do_lock_run i).1 = some .denied) ∧
      (i.blockArg = true → i.grantCb = true → i.reserveOk = false →
        (nlm_do_lock_run i).1 = some .denied_nolocks) ∧
      (i.blockArg = true → i.grantCb = true → i.reserveOk = true →
        (nlm_do_lock_run i).1 = some .blocked)) ∧
    (i.setlkErr = ENOLCK → (nlm_do_lock_run i).1 = some .denied_nolocks) ∧
    (i.setlkErr ≠ 0 → i.setlkErr ≠ EAGAIN → i.setlkErr ≠ ENOLCK →
      (nlm_do_lock_run i).1 = some .denied) ∧
    (i.blockArg = false → i.grantCb = true → i.setlkErr = EAGAIN →
      (nlm_do_lock_run i).1 = some .denied ∧
        (nlm_do_lock_run i).1 ≠ some .blocked) := by
  rw [lock_run_reaches_setlk i hhost hvh hgr]
  refine ⟨?_, ?_, ?_, ?_, ?_⟩
  · intro h0
    simp [nlm_do_lock_setlk_switch, h0]
  · intro hE
    refine ⟨?_, ?_, ?_⟩
    · rintro (hb | hc) <;> simp_all [nlm_do_lock_setlk_switch, EAGAIN]
    · intro hb hc hr
      simp [nlm_do_lock_setlk_switch, hE, hb, hc, hr, EAGAIN]
    · intro hb hc hr
      simp [nlm_do_lock_setlk_switch, hE, hb, hc, hr, EAGAIN]
  · intro hN
    simp [nlm_do_lock_setlk_switch, hN, ENOLCK, EAGAIN]
  · intro h0 hE hN
    simp [nlm_do_lock_setlk_switch, h0, hE, hN]
  · intro hb hc hE
    simp [nlm_do_lock_setlk_switch, hb, hc, hE, EAGAIN]

/-- C1 witness: a concrete non-blocking LOCK with a grant callback whose SETLK
returns EAGAIN is answered with denied, not blocked. -/
theorem C1_lock_status_from_setlk_witness :
    (nlm_do_lock_run ⟨true, false, false, 0, 0, true, 11, false, true, true⟩).1
        = some .denied ∧
      (nlm_do_lock_run ⟨true, false, false, 0, 0, true, 11, false, true, true⟩).1
        ≠ some .blocked :=
  (C1_lock_status_from_setlk ⟨true, false, false, 0, 0, true, 11, false, true, true⟩
    rfl rfl (Or.inr rfl)).2.2.2.2 rfl rfl rfl

/-- C2 counterexample: a TEST received during the grace period whose file
handle does not translate is answered stale_fh, not denied_grace_period,
because nlm_do_test translates fh to vp before checking the grace period. -/
theorem C2_counterexample :
    nlm_do_test_status ⟨true, false, true, .err⟩ = .stale_fh ∧
      nlm_do_test_status ⟨true, false, true, .err⟩ ≠ .denied_grace_period := by
  constructor
  · rfl
  · decide

/-- C2 amended: for every TEST request processed while now < grace_threshold
and whose host resolution succeeds, the handler responds denied_grace_period
provided the fh → vp translation succeeds; the grace check is applied after
the translation, so an untranslatable handle yields stale_fh instead. -/
theorem C2_grace_after_fh (i : TestIn)
    (hhost : i.hostFound = true) (hgr : i.inGrace = true) :
    (i.fhValid = true → nlm_do_test_status i = .denied_grace_period) ∧
    (i.fhValid = false → nlm_do_test_status i = .stale_fh) := by
  constructor <;> intro hfh <;> simp [nlm_do_test_status, hhost, hgr, hfh]

/-- C2 witness: a concrete in-grace TEST with a valid handle is answered
denied_grace_period. -/
theorem C2_grace_after_fh_witness :
    nlm_do_test_status ⟨true, true, true, .err⟩ = .denied_grace_period :=
  (C2_grace_after_fh ⟨true, true, true, .err⟩ rfl rfl).1 rfl

/-- C3: For every registered client sleeping lock, nlm_slock_wait returns 0 if
the final observed state is GRANTED, EINTR if the state is CANCELLED or the
wait was interrupted by a signal, and ETIMEDOUT if the timed wait expired; a
grant that lands after the timed wait returns but before the waiter re-reads
the state under the lock still yields 0. -/
theorem C3_slock_wait_result (st0 : SlState) (w : CvRes) (stW : SlState) :
    ((if st0 = .blocked then stW else st0) = .granted →
        nlm_slock_wait st0 w stW = some 0) ∧
    ((if st0 = .blocked then stW else st0) = .cancelled →
        nlm_slock_wait st0 w stW = some EINTR) ∧
    (st0 = .blocked → stW = .blocked → w = .interrupted →
        nlm_slock_wait st0 w stW = some EINTR) ∧
    (st0 = .blocked → stW = .blocked → w = .timedout →
        nlm_slock_wait st0 w stW = some ETIMEDOUT) ∧
    (st0 = .blocked → w = .timedout → stW = .granted →
        nlm_slock_wait st0 w stW = some 0) := by
  cases st0 <;> cases w <;> cases stW <;> decide

/-- C3 witness: a grant observed after the timed wait returned still makes the
wait succeed with 0. -/
theorem C3_slock_wait_result_witness :
    nlm_slock_wait .blocked .timedout .granted = some 0 :=
  (C3_slock_wait_result .blocked .timedout .granted).2.2.2.2 rfl rfl rfl

/-- C4 counterexample: an entry set to GRANTED by nlm_slock_grant is changed
again by a subsequent nlm_host_cancel_slocks on its host, which rewrites the
state to CANCELLED unconditionally — GRANTED is not terminal under cancel. -/
theorem C4_counterexample :
    ((nlm_slock_grant [⟨1, .blocked, 0, 0, 0, []⟩] 1 ⟨0, 0, 0, []⟩).2.map Slock.state
        = [.granted]) ∧
    ((nlm_host_cancel_slocks
        (nlm_slock_grant [⟨1, .blocked, 0, 0, 0, []⟩] 1 ⟨0, 0, 0, []⟩).2 1).map
          Slock.state = [.cancelled]) := by
  constructor <;> rfl

/-- Helper: each entry of the nlm_slock_grant result is either the original
entry, or an originally BLOCKED entry with its state replaced by GRANTED. -/
theorem nlm_slock_grant_entries (ls : List Slock) (h : Nat) (a : Alock) (i : Nat) :
    (nlm_slock_grant ls h a).2[i]? = ls[i]? ∨
    (∃ s, ls[i]? = some s ∧ s.state = .blocked ∧
      (nlm_slock_grant ls h a).2[i]? = some { s with state := .granted }) := by
  induction ls generalizing i with
  | nil => left; rfl
  | cons s rest ih =>
    unfold nlm_slock_grant
    split
    case isTrue hc =>
      cases i with
      | zero =>
        right
        refine ⟨s, by simp, ?_, by simp⟩
        simp only [Bool.and_eq_true, decide_eq_true_eq] at hc
        exact hc.1.1
      | succ j => left; simp
    case isFalse hc =>
      cases i with
      | zero => left; simp
      | succ j =>
        simpa using ih j

/-- C4 amended: CANCELLED is terminal — a cancelled entry keeps state
CANCELLED under any later grant or cancel; GRANTED is terminal with respect to
grant operations — nlm_slock_grant never changes a granted entry; but a later
nlm_host_cancel_slocks on the entry's host overwrites GRANTED with
CANCELLED. -/
theorem C4_terminal_states (ls : List Slock) (hg hc : Nat) (a : Alock) (i : Nat)
    (s : Slock) (hs : ls[i]? = some s) :
    (s.state = .cancelled →
      (nlm_slock_grant ls hg a).2[i]? = some s ∧
      ∃ t, (nlm_host_cancel_slocks ls hc)[i]? = some t ∧
        t.state = .cancelled) ∧
    (s.state = .granted →
      (nlm_slock_grant ls hg a).2[i]? = some s ∧
      ∃ t, (nlm_host_cancel_slocks ls hc)[i]? = some t ∧
        t.state = (if s.host = hc then .cancelled else .granted)) := by
  have hmap : (nlm_host_cancel_slocks ls hc)[i]? =
      some (if s.host = hc then { s with state := .cancelled } else s) := by
    unfold nlm_host_cancel_slocks
    rw [List.getElem?_map, hs]
    rfl
  have hgrant : ∀ hst : s.state ≠ .blocked, (nlm_slock_grant ls hg a).2[i]? = some s := by
    intro hst
    rcases nlm_slock_grant_entries ls hg a i with he | ⟨t, ht, hb, _⟩
    · rw [he, hs]
    · rw [ht] at hs
      cases hs
      exact absurd hb hst
  constructor
  · intro hcst
    refine ⟨hgrant (by simp [hcst]), ?_⟩
    refine ⟨if s.host = hc then { s with state := .cancelled } else s, hmap, ?_⟩
    split <;> simp [hcst]
  · intro hgst
    refine ⟨hgrant (by simp [hgst]), ?_⟩
    refine ⟨if s.host = hc then { s with state := .cancelled } else s, hmap, ?_⟩
    split <;> simp_all

/-- C4 witness: a concrete cancelled entry is untouched by grant and is still
cancelled after a host-wide cancel. -/
theorem C4_terminal_states_witness :
    (nlm_slock_grant [⟨1, SlState.cancelled, 0, 0, 0, []⟩] 1 ⟨0, 0, 0, []⟩).2[0]?
        = some ⟨1, SlState.cancelled, 0, 0, 0, []⟩ ∧
      ∃ t, (nlm_host_cancel_slocks [⟨1, SlState.cancelled, 0, 0, 0, []⟩] 1)[0]?
          = some t ∧ t.state = SlState.cancelled :=
  (C4_terminal_states [⟨1, SlState.cancelled, 0, 0, 0, []⟩] 1 1 ⟨0, 0, 0, []⟩ 0
    ⟨1, SlState.cancelled, 0, 0, 0, []⟩ rfl).1 rfl

/-- C5: For every CANCEL request whose host resolves, outside the grace
period, with a translating file handle, the response is granted iff the
matching server sleeping request was found and unregistered OR the forcing
F_UNLCK call to the local engine succeeded; otherwise denied. -/
theorem C5_cancel_granted_iff (i : CancelIn)
    (hhost : i.hostFound = true) (hgr : i.inGrace = false) (hvh : i.vholdOk = true) :
    (nlm_do_cancel_status i = .granted ↔
      ((nlm_slreq_unregister i.slreqs i.fl).1 = 0 ∨ i.unlockErr = 0)) ∧
    (¬((nlm_slreq_unregister i.slreqs i.fl).1 = 0 ∨ i.unlockErr = 0) →
      nlm_do_cancel_status i = .denied) := by
  by_cases hA : (nlm_slreq_unregister i.slreqs i.fl).1 = 0 <;>
    by_cases hB : i.unlockErr = 0 <;>
    simp [nlm_do_cancel_status, hhost, hgr, hvh, hA, hB]

/-- C5 witness: a concrete cancel whose sleeping request is found is granted
even though the forcing unlock failed. -/
theorem C5_cancel_granted_iff_witness :
    nlm_do_cancel_status ⟨true, false, true, [⟨0, 0, 0, 1⟩], ⟨0, 0, 0, 1⟩, 5⟩
      = .granted :=
  ((C5_cancel_granted_iff ⟨true, false, true, [⟨0, 0, 0, 1⟩], ⟨0, 0, 0, 1⟩, 5⟩
      rfl rfl rfl).1).mpr (Or.inl (by decide))

/-- Helper: a flock matches itself on the four compared fields. -/
theorem flockMatch_self (X : Flock) : flockMatch X X = true := by
  simp [flockMatch]

/-- C9: on an empty sleeping-request list, register(X) succeeds and inserts
one entry; a second register with a flock equal on (l_start, l_len, l_pid,
l_type) fails with -1 and changes nothing; a subsequent unregister(X) succeeds
and leaves the list empty. -/
theorem C9_slreq_roundtrip (X Y : Flock)
    (h1 : Y.l_start = X.l_start) (h2 : Y.l_len = X.l_len)
    (h3 : Y.l_pid = X.l_pid) (h4 : Y.l_type = X.l_type) :
    nlm_slreq_register [] X = (0, [X]) ∧
    nlm_slreq_register [X] Y = (-1, [X]) ∧
    nlm_slreq_unregister [X] X = (0, []) := by
  have hYX : Y = X := by
    cases X; cases Y; simp_all
  subst hYX
  refine ⟨rfl, ?_, ?_⟩
  · simp [nlm_slreq_register, nlm_slreq_find_locked, flockMatch_self]
  · simp [nlm_slreq_unregister, nlm_slreq_find_locked, flockMatch_self,
      List.eraseP_cons]

/-- C9 witness: the register/register/unregister round trip at a concrete
flock value. -/
theorem C9_slreq_roundtrip_witness :
    nlm_slreq_register [] (⟨0, 0, 0, 1⟩ : Flock) = (0, [⟨0, 0, 0, 1⟩]) ∧
    nlm_slreq_register [(⟨0, 0, 0, 1⟩ : Flock)] ⟨0, 0, 0, 1⟩
      = (-1, [⟨0, 0, 0, 1⟩]) ∧
    nlm_slreq_unregister [(⟨0, 0, 0, 1⟩ : Flock)] ⟨0, 0, 0, 1⟩ = (0, []) :=
  C9_slreq_roundtrip ⟨0, 0, 0, 1⟩ ⟨0, 0, 0, 1⟩ rfl rfl rfl rfl

/-- C6: the garbage collector never destroys a host whose reference count is
positive, whose idle timeout lies in the future, or that still has any busy
vhold or any remote locks/shares for its sysid in the local lock engine:
every destroyed host satisfies idle-timeout expired, refcount zero, vhold
list empty, and no locks reported for its sysid. -/
theorem C6_gc_destroy_safe (e : FlkEngine) (now idle_period : Int) (h : GcHost)
    (hd : (nlm_gc_step e now idle_period h).1 = .destroy) :
    (nlm_gc_step e now idle_period h).2.refs = 0 ∧
    (nlm_gc_step e now idle_period h).2.idle_timeout ≤ now ∧
    (nlm_gc_step e now idle_period h).2.vholds = [] ∧
    flk_sysid_has_locks e (h.sysid ||| LM_SYSID_CLIENT) = false ∧
    (∀ v ∈ h.vholds, nlm_vhold_busy e h.sysid v = false) ∧
    h.refs = 0 ∧ h.idle_timeout ≤ now := by
  by_cases ht : h.idle_timeout > now
  · simp [nlm_gc_step, ht] at hd
  · by_cases hL : nlm_host_has_locks e (nlm_host_gc_vholds e h)
        || 0 < (nlm_host_gc_vholds e h).refs
    · simp [nlm_gc_step, nlm_host_gc_vholds, nlm_host_has_locks, ht] at hd hL
      simp [hL] at hd
    · have hres : nlm_gc_step e now idle_period h = (.destroy, nlm_host_gc_vholds e h) := by
        simp only [nlm_gc_step, nlm_host_gc_vholds] at hL ⊢
        simp [ht, hL]
      rw [hres]
      simp only [Bool.or_eq_true, not_or] at hL
      obtain ⟨hL1, hL2⟩ := hL
      have hempty : (nlm_host_gc_vholds e h).vholds = [] := by
        cases hb : (nlm_host_gc_vholds e h).vholds with
        | nil => rfl
        | cons x xs =>
          exfalso
          exact hL1 (by simp [nlm_host_has_locks, hb])
      have hfl : flk_sysid_has_locks e (h.sysid ||| LM_SYSID_CLIENT) = false := by
        cases hb : flk_sysid_has_locks e (h.sysid ||| LM_SYSID_CLIENT)
        · rfl
        · exact absurd (by simp [nlm_host_has_locks, nlm_host_gc_vholds, hb]) hL1
      have hrefs : h.refs = 0 := by
        have h2 : ¬(0 < h.refs) := by
          simpa [nlm_host_gc_vholds] using hL2
        omega
      refine ⟨?_, ?_, hempty, hfl, ?_, hrefs, not_lt.mp ht⟩
      · simpa [nlm_host_gc_vholds] using hrefs
      · simpa [nlm_host_gc_vholds] using not_lt.mp ht
      · intro v hv
        have h3 : h.vholds.filter (nlm_vhold_busy e h.sysid) = [] := hempty
        have h4 := List.filter_eq_nil_iff.mp h3 v hv
        simpa using h4

/-- C6 witness: a concrete quiescent host with expired timeout is destroyed,
and the safety conditions all evaluate as stated. -/
theorem C6_gc_destroy_safe_witness :
    (nlm_gc_step ⟨[], []⟩ 0 30 ⟨5, 0, 0, []⟩).2.refs = 0 ∧
    (nlm_gc_step ⟨[], []⟩ 0 30 ⟨5, 0, 0, []⟩).2.idle_timeout ≤ 0 ∧
    (nlm_gc_step ⟨[], []⟩ 0 30 ⟨5, 0, 0, []⟩).2.vholds = [] ∧
    flk_sysid_has_locks ⟨[], []⟩ (5 ||| LM_SYSID_CLIENT) = false ∧
    (∀ v ∈ ([] : List Vhold), nlm_vhold_busy ⟨[], []⟩ 5 v = false) ∧
    (0 : Nat) = 0 ∧ (0 : Int) ≤ 0 :=
  C6_gc_destroy_safe ⟨[], []⟩ 0 30 ⟨5, 0, 0, []⟩ (by decide)

/-- Helper: the per-vhold cleanup fold of nlm_host_notify_server only removes
engine entries, never adds any. -/
theorem notify_clean_fold_mono (sysid : Nat) (l : List Vhold) (e : FlkEngine)
    (p : Nat × Nat) :
    (p ∈ (l.foldl (fun acc v =>
        cleanshares_by_sysid (cleanlocks acc v.vp sysid) v.vp sysid) e).locks →
      p ∈ e.locks) ∧
    (p ∈ (l.foldl (fun acc v =>
        cleanshares_by_sysid (cleanlocks acc v.vp sysid) v.vp sysid) e).shares →
      p ∈ e.shares) := by
  induction l generalizing e with
  | nil => exact ⟨id, id⟩
  | cons w rest ih =>
    simp only [List.foldl_cons]
    constructor
    · intro hm
      have h2 := (ih (cleanshares_by_sysid (cleanlocks e w.vp sysid) w.vp sysid)).1 hm
      simp only [cleanshares_by_sysid, cleanlocks, List.mem_filter] at h2
      exact h2.1
    · intro hm
      have h2 := (ih (cleanshares_by_sysid (cleanlocks e w.vp sysid) w.vp sysid)).2 hm
      simp only [cleanshares_by_sysid, cleanlocks, List.mem_filter] at h2
      exact h2.1

/-- Helper: after the cleanup fold, no (vp, sysid) entry survives for any
vhold of the list. -/
theorem notify_clean_fold_clears (sysid : Nat) (l : List Vhold) (e : FlkEngine)
    (v : Vhold) (hv : v ∈ l) :
    (v.vp, sysid) ∉ (l.foldl (fun acc w =>
        cleanshares_by_sysid (cleanlocks acc w.vp sysid) w.vp sysid) e).locks ∧
    (v.vp, sysid) ∉ (l.foldl (fun acc w =>
        cleanshares_by_sysid (cleanlocks acc w.vp sysid) w.vp sysid) e).shares := by
  induction l generalizing e with
  | nil => cases hv
  | cons w rest ih =>
    simp only [List.foldl_cons]
    rcases List.mem_cons.mp hv with hvw | hv2
    · subst hvw
      constructor
      · intro hm
        have h2 := (notify_clean_fold_mono sysid rest _ (v.vp, sysid)).1 hm
        simp [cleanshares_by_sysid, cleanlocks, List.mem_filter] at h2
      · intro hm
        have h2 := (notify_clean_fold_mono sysid rest _ (v.vp, sysid)).2 hm
        simp [cleanshares_by_sysid, cleanlocks, List.mem_filter] at h2
    · exact ih _ hv2

/-- C10: when a LOCK request carries an NSM state number different from the
host's recorded state, nlm_do_lock runs nlm_host_notify_server first — before
the SETLK attempt — and that cleanup empties every vhold's sleeping-request
list and clears every lock and share held under the host's sysid on each of
its vholds' vnodes. -/
theorem C10_notify_server_before_lock (i : LockIn) (h : NotifyHost)
    (e : FlkEngine) (st : Int) (hhost : i.hostFound = true)
    (hgr : i.reclaim = true ∨ i.inGrace = false)
    (hne : i.hostState ≠ i.argState) :
    (∃ rest, (nlm_do_lock_run i).2 = .notifyServer i.argState :: rest ∧
      (i.vholdOk = true → LockEv.setlk ∈ rest)) ∧
    (∀ v ∈ (nlm_host_notify_server h e st).1.vholds, v.slreqs = []) ∧
    (∀ v ∈ h.vholds,
      (v.vp, h.sysid) ∉ (nlm_host_notify_server h e st).2.locks ∧
      (v.vp, h.sysid) ∉ (nlm_host_notify_server h e st).2.shares) := by
  refine ⟨?_, ?_, ?_⟩
  · by_cases hv : i.vholdOk = false
    · refine ⟨[.reply none], ?_, ?_⟩
      · rcases hgr with hgr | hgr <;>
          simp [nlm_do_lock_run, hhost, hgr, hne, hv]
      · intro hvt
        rw [hv] at hvt
        cases hvt
    · have hv2 : i.vholdOk = true := by
        cases hb : i.vholdOk
        · exact absurd hb hv
        · rfl
      have htr : (nlm_do_lock_run i).2 =
          .notifyServer i.argState ::
            ([.setlk, .reply (some (nlm_do_lock_setlk_switch i.setlkErr
                i.blockArg i.grantCb i.reserveOk).1)]
              ++ (if (nlm_do_lock_setlk_switch i.setlkErr i.blockArg i.grantCb
                    i.reserveOk).2.2 && i.grantCb then [.monitor] else [])
              ++ (if (nlm_do_lock_setlk_switch i.setlkErr i.blockArg i.grantCb
                    i.reserveOk).2.1 then [.blockPath] else [])) := by
        rcases hgr with hgr | hgr <;>
          simp [nlm_do_lock_run, hhost, hgr, hne, hv2]
      exact ⟨_, htr, fun _ => by simp⟩
  · intro v hv
    simp only [nlm_host_notify_server, List.mem_map] at hv
    obtain ⟨w, _, hw⟩ := hv
    rw [← hw]
  · intro v hv
    exact notify_clean_fold_clears h.sysid h.vholds e v hv

/-- C10 witness: a concrete state-mismatch LOCK whose trace starts with the
server-side cleanup, and a concrete host whose lock and share entries are
cleared by it. -/
theorem C10_notify_server_before_lock_witness :
    (∃ rest,
      (nlm_do_lock_run ⟨true, false, false, 1, 0, true, 0, false, true, true⟩).2
        = .notifyServer 1 :: rest ∧ (true = true → LockEv.setlk ∈ rest)) ∧
    (∀ v ∈ (nlm_host_notify_server ⟨7, 0, [⟨3, 0, [⟨0, 0, 0, 1⟩]⟩]⟩
        ⟨[(3, 7)], [(3, 7)]⟩ 1).1.vholds, v.slreqs = []) ∧
    (∀ v ∈ [(⟨3, 0, [⟨0, 0, 0, 1⟩]⟩ : Vhold)],
      (v.vp, 7) ∉ (nlm_host_notify_server ⟨7, 0, [⟨3, 0, [⟨0, 0, 0, 1⟩]⟩]⟩
          ⟨[(3, 7)], [(3, 7)]⟩ 1).2.locks ∧
      (v.vp, 7) ∉ (nlm_host_notify_server ⟨7, 0, [⟨3, 0, [⟨0, 0, 0, 1⟩]⟩]⟩
          ⟨[(3, 7)], [(3, 7)]⟩ 1).2.shares) :=
  C10_notify_server_before_lock ⟨true, false, false, 1, 0, true, 0, false, true, true⟩
    ⟨7, 0, [⟨3, 0, [⟨0, 0, 0, 1⟩]⟩]⟩ ⟨[(3, 7)], [(3, 7)]⟩ 1 rfl (Or.inr rfl)
    (by decide)

/-- Helper: a successful find? splits the list into a failing front, the
found record and a tail, and replaceFirst substitutes exactly there. -/
theorem find?_decomp (l : List RHost) (p : RHost → Bool) (h : RHost)
    (hf : l.find? p = some h) :
    ∃ l1 l2, l = l1 ++ h :: l2 ∧ (∀ x ∈ l1, p x = false) ∧ p h = true ∧
      ∀ h1, replaceFirst l p h1 = l1 ++ h1 :: l2 := by
  induction l with
  | nil => cases hf
  | cons x xs ih =>
    cases hp : p x with
    | true =>
      rw [List.find?_cons_of_pos _ hp] at hf
      obtain rfl := Option.some.inj hf
      exact ⟨[], xs, rfl, by simp, hp, fun h1 => by simp [replaceFirst, hp]⟩
    | false =>
      rw [List.find?_cons_of_neg _ (by simp [hp])] at hf
      obtain ⟨l1, l2, hl, hl1, hph, hrep⟩ := ih hf
      refine ⟨x :: l1, l2, by simp [hl], ?_, hph,
        fun h1 => by simp [replaceFirst, hp, hrep h1]⟩
      intro y hy
      rcases List.mem_cons.mp hy with rfl | hy2
      · exact hp
      · exact hl1 y hy2

/-- Helper: replacing the middle record by one agreeing with it under R on
both sides preserves pairwise R. -/
theorem pairwise_replace_middle {R : RHost → RHost → Prop} (l1 l2 : List RHost)
    (h h1 : RHost) (hfwd : ∀ y, R h y → R h1 y) (hbwd : ∀ y, R y h → R y h1)
    (hp : (l1 ++ h :: l2).Pairwise R) : (l1 ++ h1 :: l2).Pairwise R := by
  rw [List.pairwise_append] at hp ⊢
  obtain ⟨hp1, hp2, hp3⟩ := hp
  rw [List.pairwise_cons] at hp2 ⊢
  refine ⟨hp1, ⟨fun y hy => hfwd y (hp2.1 y hy), hp2.2⟩, ?_⟩
  intro a ha b hb
  rcases List.mem_cons.mp hb with rfl | hb2
  · exact hbwd a (hp3 a ha h (List.mem_cons_self h l2))
  · exact hp3 a ha b (List.mem_cons.mpr (Or.inr hb2))

/-- Helper: replaceFirst never changes the list length. -/
theorem replaceFirst_length (l : List RHost) (p : RHost → Bool) (h1 : RHost) :
    (replaceFirst l p h1).length = l.length := by
  induction l with
  | nil => rfl
  | cons x xs ih =>
    unfold replaceFirst
    split <;> simp [ih]

/-- Helper: find? over a decomposition whose front all fails hits the middle
record. -/
theorem find?_middle (l1 l2 : List RHost) (p : RHost → Bool) (h : RHost)
    (hfail : ∀ x ∈ l1, p x = false) (hp : p h = true) :
    (l1 ++ h :: l2).find? p = some h := by
  induction l1 with
  | nil => simpa using List.find?_cons_of_pos l2 hp
  | cons x xs ih =>
    have hx : p x = false := hfail x (List.mem_cons_self x xs)
    simp only [List.cons_append]
    rw [List.find?_cons_of_neg _ (by simp [hx])]
    exact ih fun y hy => hfail y (List.mem_cons.mpr (Or.inr hy))

/-- Helper: find? skips a front on which it fails everywhere. -/
theorem find?_append_none (l1 l2 : List RHost) (p : RHost → Bool)
    (h : l1.find? p = none) : (l1 ++ l2).find? p = l2.find? p := by
  induction l1 with
  | nil => rfl
  | cons x xs ih =>
    rw [List.find?_eq_none] at h
    have hx : ¬p x = true := h x (List.mem_cons_self x xs)
    simp only [List.cons_append]
    rw [List.find?_cons_of_neg _ hx]
    exact ih (List.find?_eq_none.mpr fun y hy => h y (List.mem_cons.mpr (Or.inr hy)))

/-- Helper: sysid distinctness of the found record against the rest of the
decomposition. -/
theorem sysid_distinct_of_decomp (l1 l2 : List RHost) (h : RHost)
    (hp : (l1 ++ h :: l2).Pairwise fun a b => a.sysid ≠ b.sysid) :
    (∀ y ∈ l1, y.sysid ≠ h.sysid) ∧ (∀ y ∈ l2, y.sysid ≠ h.sysid) := by
  rw [List.pairwise_append] at hp
  obtain ⟨_, hp2, hp3⟩ := hp
  rw [List.pairwise_cons] at hp2
  exact ⟨fun y hy => hp3 y hy h (List.mem_cons_self h l2),
    fun y hy => (hp2.1 y hy).symm⟩

/-- C7: for every host in the registry, the reference count is positive iff
the host is absent from the idle LRU — an invariant preserved by both
nlm_host_find_locked and nlm_host_release; moreover when the count drops to
zero, nlm_host_release stamps idle_timeout := now + idle_period and appends
the host to the idle LRU tail; and a find on a zero-refcount host removes it
from the idle list while incrementing the count. -/
theorem C7_refcount_idle_invariant (g : Registry) (netid : String) (addr : Nat)
    (sid : Nat) (now idle_period : Int) (hwf : RegistryWF g) (hinv : IdleInv g) :
    IdleInv (nlm_host_find_locked g netid addr).2 ∧
    IdleInv (nlm_host_release g sid now idle_period) ∧
    (∀ h, g.hosts.find? (fun x => x.sysid == sid) = some h → h.refs = 1 →
      nlm_host_release g sid now idle_period =
        { g with
          hosts := replaceFirst g.hosts (fun x => x.sysid == sid)
            { h with refs := 0, idle_timeout := now + idle_period },
          idle := g.idle ++ [sid] }) ∧
    (∀ h, g.hosts.find? (rhostKeyMatch netid addr) = some h → h.refs = 0 →
      nlm_host_find_locked g netid addr =
        (some { h with refs := h.refs + 1 },
         { g with
           hosts := replaceFirst g.hosts (rhostKeyMatch netid addr)
             { h with refs := h.refs + 1 },
           idle := g.idle.erase h.sysid })) := by
  obtain ⟨⟨hkey, hsys⟩, hnodup⟩ := hwf
  refine ⟨?_, ?_, ?_, ?_⟩
  · cases hfind : g.hosts.find? (rhostKeyMatch netid addr) with
    | none =>
      simpa [nlm_host_find_locked, hfind] using hinv
    | some h =>
      obtain ⟨l1, l2, hl, hl1, hph, hrep⟩ := find?_decomp _ _ _ hfind
      have hmem : h ∈ g.hosts := by rw [hl]; simp
      obtain ⟨hd1, hd2⟩ := sysid_distinct_of_decomp l1 l2 h (hl ▸ hsys)
      have heq : (nlm_host_find_locked g netid addr).2 =
          { g with
            hosts := l1 ++ { h with refs := h.refs + 1 } :: l2,
            idle := if h.refs = 0 then g.idle.erase h.sysid else g.idle } := by
        simp [nlm_host_find_locked, hfind, hrep]
      rw [heq]
      intro x hx
      simp only [List.mem_append, List.mem_cons] at hx
      rcases hx with hx1 | hx2 | hx3
      · have hne : x.sysid ≠ h.sysid := hd1 x hx1
        have hxg : x ∈ g.hosts := by rw [hl]; simp [hx1]
        by_cases hr : h.refs = 0 <;>
          simp [hr, List.mem_erase_of_ne hne, hinv x hxg]
      · subst hx2
        simp only [Nat.succ_pos, true_iff]
        by_cases hr : h.refs = 0
        · simp [hr]
          exact hnodup.not_mem_erase
        · simp [hr]
          exact (hinv h hmem).mp (Nat.pos_of_ne_zero hr)
      · have hne : x.sysid ≠ h.sysid := hd2 x hx3
        have hxg : x ∈ g.hosts := by rw [hl]; simp [hx3]
        by_cases hr : h.refs = 0 <;>
          simp [hr, List.mem_erase_of_ne hne, hinv x hxg]
  · cases hfind : g.hosts.find? (fun x => x.sysid == sid) with
    | none =>
      simpa [nlm_host_release, hfind] using hinv
    | some h =>
      obtain ⟨l1, l2, hl, hl1, hph, hrep⟩ := find?_decomp _ _ _ hfind
      have hmem : h ∈ g.hosts := by rw [hl]; simp
      obtain ⟨hd1, hd2⟩ := sysid_distinct_of_decomp l1 l2 h (hl ▸ hsys)
      have hsid : h.sysid = sid := by simpa using hph
      by_cases hr0 : h.refs = 0
      · simpa [nlm_host_release, hfind, hr0] using hinv
      · by_cases hr1 : h.refs = 1
        · have heq : nlm_host_release g sid now idle_period =
              { g with
                hosts := l1 ++
                  { h with refs := 0, idle_timeout := now + idle_period } :: l2,
                idle := g.idle ++ [sid] } := by
            simp [nlm_host_release, hfind, hr0, hr1, hrep]
          rw [heq]
          intro x hx
          simp only [List.mem_append, List.mem_cons] at hx
          rcases hx with hx1 | hx2 | hx3
          · have hne : x.sysid ≠ sid := hsid ▸ hd1 x hx1
            have hxg : x ∈ g.hosts := by rw [hl]; simp [hx1]
            simp [hne, hinv x hxg]
          · subst hx2
            simp [hsid]
          · have hne : x.sysid ≠ sid := hsid ▸ hd2 x hx3
            have hxg : x ∈ g.hosts := by rw [hl]; simp [hx3]
            simp [hne, hinv x hxg]
        · have heq : nlm_host_release g sid now idle_period =
              { g with hosts := l1 ++ { h with refs := h.refs - 1 } :: l2 } := by
            simp [nlm_host_release, hfind, hr0, hr1, hrep]
          rw [heq]
          intro x hx
          simp only [List.mem_append, List.mem_cons] at hx
          rcases hx with hx1 | hx2 | hx3
          · have hxg : x ∈ g.hosts := by rw [hl]; simp [hx1]
            simpa using hinv x hxg
          · subst hx2
            have hpos : 0 < h.refs - 1 := by omega
            simp only [hpos, true_iff]
            exact (hinv h hmem).mp (Nat.pos_of_ne_zero hr0)
          · have hxg : x ∈ g.hosts := by rw [hl]; simp [hx3]
            simpa using hinv x hxg
  · intro h hfind hr1
    simp [nlm_host_release, hfind, hr1]
  · intro h hfind hr0
    simp [nlm_host_find_locked, hfind, hr0]

/-- C7 witness: releasing the last reference of a concrete host stamps its
idle timeout and appends it to the idle LRU. -/
theorem C7_refcount_idle_invariant_witness :
    nlm_host_release ⟨[⟨"a", "tcp", 1, 5, 1, 0⟩], [], true⟩ 5 0 30 =
      { Registry.mk [⟨"a", "tcp", 1, 5, 1, 0⟩] [] true with
        hosts := replaceFirst [⟨"a", "tcp", 1, 5, 1, 0⟩] (fun x => x.sysid == 5)
          ⟨"a", "tcp", 1, 5, 0, (0 : Int) + 30⟩,
        idle := [] ++ [5] } :=
  (C7_refcount_idle_invariant ⟨[⟨"a", "tcp", 1, 5, 1, 0⟩], [], true⟩ "tcp" 1 5 0 30
      (by constructor
          · constructor <;> simp
          · simp)
      (by intro x hx
          simp at hx
          subst hx
          simp)).2.2.1
    ⟨"a", "tcp", 1, 5, 1, 0⟩ rfl rfl

/-- Helper: a findcreate on a registry whose (addr, netid) lookup hits
returns the found record re-referenced and does not change the number of
host records. -/
theorem findcreate_hit (g : Registry) (name netid : String) (addr : Nat)
    (k : Bool) (s : Option Nat) (h : RHost) (hup : g.up = true)
    (hfind : g.hosts.find? (rhostKeyMatch netid addr) = some h) :
    ∃ g2, nlm_host_findcreate g name netid addr k s =
        (some { h with refs := h.refs + 1 }, g2) ∧
      g2.hosts.length = g.hosts.length := by
  refine ⟨{ g with
      hosts := replaceFirst g.hosts (rhostKeyMatch netid addr)
        { h with refs := h.refs + 1 },
      idle := if h.refs = 0 then g.idle.erase h.sysid else g.idle }, ?_, ?_⟩
  · simp [nlm_host_findcreate, nlm_host_find_locked, hup, hfind]
  · simp [replaceFirst_length]

/-- C8: a findcreate immediately followed by a second findcreate with the
same keys returns the same host record with a strictly higher reference
count and no new allocation observable; and the re-check phase discards a
surplus host allocated by a racing creation instead of inserting it, keeping
a single record per (addr, netid) key and per sysid in both indices. -/
theorem C8_findcreate_idempotent (g : Registry) (name netid : String)
    (addr : Nat) (k1 k2 : Bool) (s1 s2 : Option Nat) (h : RHost) (g1 : Registry)
    (hup : g.up = true)
    (hfc : nlm_host_findcreate g name netid addr k1 s1 = (some h, g1)) :
    (∃ h2 g2, nlm_host_findcreate g1 name netid addr k2 s2 = (some h2, g2) ∧
      h2.name = h.name ∧ h2.netid = h.netid ∧ h2.addr = h.addr ∧
      h2.sysid = h.sysid ∧ h2.refs = h.refs + 1 ∧
      g2.hosts.length = g1.hosts.length) ∧
    (∀ gr newhost hx, KeyUnique gr →
      gr.hosts.find? (rhostKeyMatch newhost.netid newhost.addr) = some hx →
      (nlm_host_findcreate_insert gr newhost).2.2 = true ∧
      (nlm_host_findcreate_insert gr newhost).2.1.hosts.length =
        gr.hosts.length ∧
      KeyUnique (nlm_host_findcreate_insert gr newhost).2.1) := by
  constructor
  · cases hfind : g.hosts.find? (rhostKeyMatch netid addr) with
    | some h0 =>
      obtain ⟨l1, l2, hl, hl1, hph, hrep⟩ := find?_decomp _ _ _ hfind
      simp only [nlm_host_findcreate, nlm_host_find_locked, hup, hfind,
        Bool.true_eq_false, if_false, Prod.mk.injEq, Option.some.injEq] at hfc
      obtain ⟨hh, hg1⟩ := hfc
      subst hh
      subst hg1
      have hph2 : rhostKeyMatch netid addr { h0 with refs := h0.refs + 1 } = true :=
        hph
      have hfind2 :
          (replaceFirst g.hosts (rhostKeyMatch netid addr)
              { h0 with refs := h0.refs + 1 }).find? (rhostKeyMatch netid addr)
            = some { h0 with refs := h0.refs + 1 } := by
        rw [hrep]
        exact find?_middle l1 l2 _ _ hl1 hph2
      obtain ⟨g2, hsec, hlen⟩ := findcreate_hit
        ⟨replaceFirst g.hosts (rhostKeyMatch netid addr)
            { h0 with refs := h0.refs + 1 },
          (if h0.refs = 0 then g.idle.erase h0.sysid else g.idle), true⟩
        name netid addr k2 s2 { h0 with refs := h0.refs + 1 } rfl hfind2
      exact ⟨{ h0 with refs := h0.refs + 1 + 1 }, g2, hsec, rfl, rfl, rfl, rfl,
        rfl, hlen⟩
    | none =>
      cases k1 with
      | false =>
        simp [nlm_host_findcreate, nlm_host_find_locked, hup, hfind] at hfc
      | true =>
        cases s1 with
        | none =>
          simp [nlm_host_findcreate, nlm_host_find_locked, hup, hfind] at hfc
        | some sid =>
          simp only [nlm_host_findcreate, nlm_host_find_locked,
            nlm_host_findcreate_insert, hup, hfind, Bool.true_eq_false,
            if_false, Prod.mk.injEq, Option.some.injEq] at hfc
          obtain ⟨hh, hg1⟩ := hfc
          subst hh
          subst hg1
          have hfind2 :
              (g.hosts ++ [(⟨name, netid, addr, sid, 1, 0⟩ : RHost)]).find?
                  (rhostKeyMatch netid addr)
                = some ⟨name, netid, addr, sid, 1, 0⟩ := by
            rw [find?_append_none _ _ _ hfind]
            exact List.find?_cons_of_pos _ (by simp [rhostKeyMatch])
          obtain ⟨g2, hsec, hlen⟩ := findcreate_hit
            ⟨g.hosts ++ [⟨name, netid, addr, sid, 1, 0⟩], g.idle, true⟩
            name netid addr k2 s2 ⟨name, netid, addr, sid, 1, 0⟩ rfl hfind2
          exact ⟨⟨name, netid, addr, sid, 1 + 1, 0⟩, g2, hsec, rfl, rfl, rfl,
            rfl, rfl, hlen⟩
  · intro gr newhost hx hku hfindx
    obtain ⟨l1, l2, hl, hl1, hph, hrep⟩ := find?_decomp _ _ _ hfindx
    have heq : nlm_host_findcreate_insert gr newhost =
        (some { hx with refs := hx.refs + 1 },
         { gr with
           hosts := replaceFirst gr.hosts
             (rhostKeyMatch newhost.netid newhost.addr)
             { hx with refs := hx.refs + 1 },
           idle := if hx.refs = 0 then gr.idle.erase hx.sysid else gr.idle },
         true) := by
      simp [nlm_host_findcreate_insert, nlm_host_find_locked, hfindx]
    rw [heq]
    obtain ⟨hkeys, hsys⟩ := hku
    refine ⟨rfl, by simp [replaceFirst_length], ?_, ?_⟩
    · show (replaceFirst gr.hosts _ _).Pairwise _
      rw [hrep]
      exact pairwise_replace_middle l1 l2 hx _ (fun y hy => hy) (fun y hy => hy)
        (hl ▸ hkeys)
    · show (replaceFirst gr.hosts _ _).Pairwise _
      rw [hrep]
      exact pairwise_replace_middle l1 l2 hx _ (fun y hy => hy) (fun y hy => hy)
        (hl ▸ hsys)

/-- C8 witness: creating a host in an empty registry and immediately calling
findcreate again with the same keys yields the same record with refcount 2
and no new host record. -/
theorem C8_findcreate_idempotent_witness :
    (∃ h2 g2,
      nlm_host_findcreate ⟨[⟨"a", "tcp", 1, 5, 1, 0⟩], [], true⟩ "a" "tcp" 1
          true (some 6) = (some h2, g2) ∧
        h2.name = "a" ∧ h2.netid = "tcp" ∧ h2.addr = 1 ∧ h2.sysid = 5 ∧
        h2.refs = 1 + 1 ∧ g2.hosts.length = 1) ∧
    (∀ gr newhost hx, KeyUnique gr →
      gr.hosts.find? (rhostKeyMatch newhost.netid newhost.addr) = some hx →
      (nlm_host_findcreate_insert gr newhost).2.2 = true ∧
      (nlm_host_findcreate_insert gr newhost).2.1.hosts.length =
        gr.hosts.length ∧
      KeyUnique (nlm_host_findcreate_insert gr newhost).2.1) :=
  C8_findcreate_idempotent ⟨[], [], true⟩ "a" "tcp" 1 true true (some 5) (some 6)
    ⟨"a", "tcp", 1, 5, 1, 0⟩ ⟨[⟨"a", "tcp", 1, 5, 1, 0⟩], [], true⟩ rfl rfl

end NLM
